import Mathlib

/-!
# linkding-to-markdown: paginated fetch client and render data builder

A shallow embedding of `internal/linkding/client.go`, `internal/markdown/generator.go`
and `cmd/fetch.go`.

Conventions of the embedding

* Go `int` values (`limit`, `offset`, status codes) are `Int`.  The only arithmetic the
  program does on them is `offset += limit` in the pagination loop; every iteration that
  reaches that statement has appended at least `limit` records to `allBookmarks`, so
  `offset ≤ len(allBookmarks)` throughout (`FetchAllBookmarks_offset_le_count`) and the
  addition cannot leave the range of a 64-bit `int` before the slice itself outgrows the
  address space.
* A Go `error` is represented by its message (`Error()`), since every error the program
  makes is built by `fmt.Errorf` and only ever printed.
* A nil slice and an empty slice are both `[]`.
* Go maps (`url.Values`, `template.FuncMap`, `map[string][]Bookmark`) are association
  lists with unique keys; the list order is the order of first insertion and is not
  observable through `lookup`.
* The network, the clock, the file system and the Go standard library are not part of
  the repository; they are the fields of `Env`.  Effects are passed explicitly: the
  requests handed to the HTTP client are appended to a log.
* The `for` loop of `FetchAllBookmarks` has no bound, so the loop is run for a given
  number of iterations and reports whether it is still running or has returned.
-/

namespace gomap

/-- A Go `map[string]β`: key/value pairs with unique keys. -/
abbrev Map (β : Type) := List (String × β)

/-- The keys present in the map. -/
def keys {β : Type} (m : Map β) : List String := m.map Prod.fst

/-- The two-value index expression `v, ok := m[k]`. -/
def lookup {β : Type} : Map β → String → Option β
  | [], _ => none
  | (k', v) :: m, k => if k' = k then some v else lookup m k

/-- The assignment `m[k] = v`. -/
def assign {β : Type} : Map β → String → β → Map β
  | [], k, v => [(k, v)]
  | (k', v') :: m, k, v => if k' = k then (k, v) :: m else (k', v') :: assign m k v

/-- The index expression `m[k]` of a map of slices: the zero value (nil) when absent. -/
def index {α : Type} (m : Map (List α)) (k : String) : List α := (lookup m k).getD []

end gomap

namespace linkding

/-- Go `time.Time`: seconds since January 1, year 1 00:00:00 UTC, nanoseconds within the
second, and the offset of the location east of UTC in seconds. -/
structure Time where
  sec : Int
  nsec : Nat
  offset : Int
  deriving DecidableEq, Repr

/-- The method `time.Time.IsZero`: the instant January 1, year 1, 00:00:00 UTC. -/
def Time.IsZero (t : Time) : Bool := t.sec == 0 && t.nsec == 0

/-- Days from January 1, year 1 to a date of the proleptic Gregorian calendar. -/
def daysFromCivil (year month day : Int) : Int :=
  let y := if month ≤ 2 then year - 1 else year
  let era := y / 400
  let yoe := y - era * 400
  let mp := if month > 2 then month - 3 else month + 9
  let doy := (153 * mp + 2) / 5 + day - 1
  let doe := yoe * 365 + yoe / 4 - yoe / 100 + doy
  era * 146097 + doe - 306

/-- The constructor `time.Date(year, month, day, hour, min, sec, 0, time.UTC)` for
arguments in their normal ranges. -/
def Date (year month day hour min sec : Int) : Time :=
  ⟨daysFromCivil year month day * 86400 + hour * 3600 + min * 60 + sec, 0, 0⟩

/-- The method `time.Time.Date`: year, month and day of the instant in its location. -/
def Time.civil (t : Time) : Int × Int × Int :=
  let z := (t.sec + t.offset) / 86400 + 306
  let era := z / 146097
  let doe := z - era * 146097
  let yoe := (doe - doe / 1460 + doe / 36524 - doe / 146096) / 365
  let doy := doe - (365 * yoe + yoe / 4 - yoe / 100)
  let mp := (5 * doy + 2) / 153
  let d := doy - (153 * mp + 2) / 5 + 1
  let m := if mp < 10 then mp + 3 else mp - 9
  let y := yoe + era * 400
  (if m ≤ 2 then y + 1 else y, m, d)

/-- The helper `appendInt` of package time: decimal digits of `x`, zero-padded to
`width`, after a minus sign when negative. -/
def appendInt (x : Int) (width : Nat) : String :=
  let digits := toString x.natAbs
  let padded := String.mk (List.replicate (width - digits.length) '0') ++ digits
  if x < 0 then "-" ++ padded else padded

/-- What `t.Format("2006-01-02")` prints: four-digit year, two-digit month, two-digit
day of month, joined by hyphens. -/
def Time.isoDate (t : Time) : String :=
  match t.civil with
  | (y, m, d) => appendInt y 4 ++ "-" ++ appendInt m 2 ++ "-" ++ appendInt d 2

/-- The layout constant `time.RFC3339`. -/
def RFC3339 : String := "2006-01-02T15:04:05Z07:00"

/-- Bookmark represents a Linkding bookmark. -/
structure Bookmark where
  ID : Int
  URL : String
  Title : String
  Description : String
  Notes : String
  WebsiteTitle : String
  WebsiteDescription : String
  IsArchived : Bool
  Unread : Bool
  Shared : Bool
  TagNames : List String
  DateAdded : Time
  DateModified : Time
  deriving DecidableEq, Repr

/-- BookmarksResponse represents the API response for listing bookmarks. -/
structure BookmarksResponse where
  Count : Int
  Next : Option String
  Previous : Option String
  Results : List Bookmark
  deriving DecidableEq, Repr

/-- The type `url.Values`: a map from parameter name to its values. -/
abbrev Values := gomap.Map (List String)

/-- The method `url.Values.Set`: the key holds exactly the one value afterwards. -/
def Values.Set (v : Values) (key value : String) : Values := gomap.assign v key [value]

/-- The index expression `v[key]` on `url.Values`: everything stored under a key. -/
def Values.Lookup (v : Values) (key : String) : Option (List String) := gomap.lookup v key

/-- The request URL, kept in parsed form: the text before `?` and the parameter table
that `params.Encode()` serialises after it (empty when there is no `?` part). -/
structure URL where
  Path : String
  RawQuery : Values
  deriving DecidableEq, Repr

/-- An `http.Request` as built by `FetchBookmarks`. -/
structure Request where
  Method : String
  URL : URL
  Header : gomap.Map String
  deriving DecidableEq, Repr

/-- The outcome of `c.HTTPClient.Do(req)`: a transport error, or a response with its
status code, the bytes `io.ReadAll` gets from the body and the error it reports. -/
inductive Reply where
  | failure (err : String)
  | response (StatusCode : Int) (Body : String) (ReadErr : Option String)
  deriving DecidableEq, Repr

/-- The type `http.Client`: only the timeout is configured. -/
structure HTTPClient where
  Timeout : Int
  deriving DecidableEq, Repr

/-- Client represents a Linkding API client. -/
structure Client where
  BaseURL : String
  Token : String
  HTTPClient : HTTPClient
  deriving DecidableEq, Repr

/-- What the program uses and the repository does not contain: the Go standard library
and the outside world. -/
structure Env where
  /-- The method `time.Time.Format`. -/
  Format : Time → String → String
  /-- The error of `http.NewRequest(method, url, nil)`, if any. -/
  NewRequest : String → URL → Option String
  /-- The call `http.Client.Do` against the remote service. -/
  Do : HTTPClient → Request → Reply
  /-- The call `json.Unmarshal` of a response body into a `BookmarksResponse`. -/
  Unmarshal : String → Except String BookmarksResponse

/-- The decimal text `fmt.Sprintf("%d", n)` of a Go `int`. -/
def fmtD (n : Int) : String := toString n

/-- The constant `http.StatusOK`. -/
def StatusOK : Int := 200

/-- NewClient creates a new Linkding API client. -/
def NewClient (baseURL token : String) (timeout : Int) : Except String Client :=
  if baseURL = "" then .error "base URL is required"
  else if token = "" then .error "API token is required"
  else .ok { BaseURL := baseURL, Token := token, HTTPClient := { Timeout := timeout } }

/-- The `params` table of `FetchBookmarks` (client.go lines 64-84). -/
def FetchBookmarks.params (env : Env) (query : String) (addedSince modifiedSince : Time)
    (limit offset : Int) : Values :=
  let params : Values := []
  let params := if query ≠ "" then params.Set "q" query else params
  let params :=
    if !addedSince.IsZero then params.Set "added_since" (env.Format addedSince RFC3339)
    else params
  let params :=
    if !modifiedSince.IsZero then
      params.Set "modified_since" (env.Format modifiedSince RFC3339)
    else params
  let params := if limit > 0 then params.Set "limit" (fmtD limit) else params
  let params := if offset > 0 then params.Set "offset" (fmtD offset) else params
  params

/-- The `apiURL` of `FetchBookmarks` (client.go lines 86-89). -/
def FetchBookmarks.apiURL (env : Env) (c : Client) (query : String)
    (addedSince modifiedSince : Time) (limit offset : Int) : URL :=
  let params := FetchBookmarks.params env query addedSince modifiedSince limit offset
  let apiURL : URL := { Path := c.BaseURL ++ "/api/bookmarks/", RawQuery := [] }
  if params.length > 0 then { apiURL with RawQuery := params } else apiURL

/-- The request `FetchBookmarks` hands to the HTTP client (client.go lines 91-97). -/
def FetchBookmarks.req (env : Env) (c : Client) (query : String)
    (addedSince modifiedSince : Time) (limit offset : Int) : Request :=
  let req : Request :=
    { Method := "GET"
      URL := FetchBookmarks.apiURL env c query addedSince modifiedSince limit offset
      Header := [] }
  let req := { req with Header := gomap.assign req.Header "Authorization" ("Token " ++ c.Token) }
  { req with Header := gomap.assign req.Header "Accept" "application/json" }

/-- What a fetch returns, `([]Bookmark, error)`, together with the log of the requests
handed to the HTTP client so far. -/
structure Fetched where
  bookmarks : List Bookmark
  err : Option String
  sent : List Request
  deriving DecidableEq, Repr

/-- FetchBookmarks retrieves bookmarks from Linkding with optional filters. -/
def FetchBookmarks (env : Env) (c : Client) (query : String) (addedSince modifiedSince : Time)
    (limit offset : Int) (sent : List Request) : Fetched :=
  let apiURL := FetchBookmarks.apiURL env c query addedSince modifiedSince limit offset
  match env.NewRequest "GET" apiURL with
  | some err => ⟨[], some ("failed to create request: " ++ err), sent⟩
  | none =>
    let req := FetchBookmarks.req env c query addedSince modifiedSince limit offset
    match env.Do c.HTTPClient req with
    | .failure err => ⟨[], some ("failed to execute request: " ++ err), sent ++ [req]⟩
    | .response StatusCode Body ReadErr =>
      if StatusCode ≠ StatusOK then
        ⟨[], some ("API request failed with status " ++ fmtD StatusCode ++ ": " ++ Body),
          sent ++ [req]⟩
      else
        match ReadErr with
        | some err => ⟨[], some ("failed to read response body: " ++ err), sent ++ [req]⟩
        | none =>
          match env.Unmarshal Body with
          | .error err => ⟨[], some ("failed to parse response: " ++ err), sent ++ [req]⟩
          | .ok response => ⟨response.Results, none, sent ++ [req]⟩

/-- The variables of the loop of `FetchAllBookmarks`, with the request log. -/
structure LoopState where
  allBookmarks : List Bookmark
  offset : Int
  sent : List Request
  deriving DecidableEq, Repr

/-- Where a run of `FetchAllBookmarks` stands: at the head of the loop, about to issue
the next request, or returned. -/
inductive Run where
  | running (s : LoopState)
  | returned (r : Fetched)
  deriving DecidableEq, Repr

/-- The requests issued so far in a run. -/
def Run.sent : Run → List Request
  | .running s => s.sent
  | .returned r => r.sent

/-- One pass through the body of the `for` loop (client.go lines 130-145); the two
`break`s continue at `return allBookmarks, nil`. -/
def FetchAllBookmarks.body (env : Env) (c : Client) (query : String)
    (addedSince modifiedSince : Time) (limit : Int) (s : LoopState) : Run :=
  let r := FetchBookmarks env c query addedSince modifiedSince limit s.offset s.sent
  match r.err with
  | some err =>
    .returned ⟨[], some ("failed to fetch bookmarks at offset " ++ fmtD s.offset ++ ": " ++ err),
      r.sent⟩
  | none =>
    if r.bookmarks.length = 0 then .returned ⟨s.allBookmarks, none, r.sent⟩
    else
      let allBookmarks := s.allBookmarks ++ r.bookmarks
      if (r.bookmarks.length : Int) < limit then .returned ⟨allBookmarks, none, r.sent⟩
      else .running ⟨allBookmarks, s.offset + limit, r.sent⟩

/-- The loop run for at most `n` iterations from state `s`. -/
def FetchAllBookmarks.loop (env : Env) (c : Client) (query : String)
    (addedSince modifiedSince : Time) (limit : Int) : Nat → LoopState → Run
  | 0, s => .running s
  | n + 1, s =>
    match FetchAllBookmarks.body env c query addedSince modifiedSince limit s with
    | .running s' => FetchAllBookmarks.loop env c query addedSince modifiedSince limit n s'
    | .returned r => .returned r

/-- FetchAllBookmarks retrieves all bookmarks matching the given filters by handling
pagination.  `n` bounds the number of loop iterations; `sent` is the request log on
entry. -/
def FetchAllBookmarks (env : Env) (n : Nat) (c : Client) (query : String)
    (addedSince modifiedSince : Time) (sent : List Request) : Run :=
  let limit : Int := 100
  let offset : Int := 0
  FetchAllBookmarks.loop env c query addedSince modifiedSince limit n ⟨[], offset, sent⟩

/-- The server answers the page request at `offset` with a 200 whose body decodes to an
envelope with the given `results`. -/
def Serves (env : Env) (c : Client) (query : String) (addedSince modifiedSince : Time)
    (offset : Int) (results : List Bookmark) : Prop :=
  env.NewRequest "GET" (FetchBookmarks.apiURL env c query addedSince modifiedSince 100 offset)
      = none ∧
  ∃ body response,
    env.Do c.HTTPClient (FetchBookmarks.req env c query addedSince modifiedSince 100 offset)
      = .response 200 body none ∧
    env.Unmarshal body = .ok response ∧ response.Results = results

end linkding

namespace markdown

open linkding

/-- The rune test `unicode.IsSpace`: the Latin-1 cases and the `White_Space` table. -/
def IsSpace (r : Char) : Bool :=
  let n := r.toNat
  (0x09 ≤ n && n ≤ 0x0D) || n == 0x20 || n == 0x85 || n == 0xA0 || n == 0x1680 ||
    (0x2000 ≤ n && n ≤ 0x200A) || n == 0x2028 || n == 0x2029 || n == 0x202F ||
    n == 0x205F || n == 0x3000

/-- The function `strings.TrimSpace`: the string without its leading and trailing white
space. -/
def TrimSpace (s : String) : String :=
  String.mk (((s.data.dropWhile IsSpace).reverse.dropWhile IsSpace).reverse)

/-- The function `strings.Join`. -/
def Join (elems : List String) (sep : String) : String := sep.intercalate elems

/-- Options for generating markdown. -/
structure Options where
  Title : String
  IncludeNotes : Bool
  IncludeTags : Bool
  GroupByDate : Bool
  DateFormat : String
  deriving DecidableEq, Repr

/-- DefaultOptions returns the default generation options. -/
def DefaultOptions : Options :=
  { Title := "Bookmarks"
    IncludeNotes := true
    IncludeTags := true
    GroupByDate := true
    DateFormat := "2006-01-02" }

/-- A function that can be registered in a `template.FuncMap`, by signature. -/
inductive TemplateFunc where
  | timeString (f : Time → String → String)
  | stringsString (f : List String → String → String)
  | stringBool (f : String → Bool)

/-- The table `template.FuncMap`: helper name to function. -/
abbrev FuncMap := gomap.Map TemplateFunc

/-- A parsed `text/template`: the functions registered before parsing and the source. -/
structure Template where
  funcs : FuncMap
  text : String

/-- Generator handles markdown generation from bookmarks. -/
structure Generator where
  template : Template

/-- The record templateData holds data for template rendering; a nil `GroupedBookmarks`
is `none`. -/
structure templateData where
  Title : String
  Generated : String
  Bookmarks : List Bookmark
  GroupedBookmarks : Option (gomap.Map (List Bookmark))
  Options : Options
  deriving DecidableEq, Repr

/-- The standard library and the files the markdown package uses beyond `linkding.Env`. -/
structure RenderEnv extends linkding.Env where
  /-- The error of `template.New("markdown").Funcs(funcMap).Parse(tmplStr)`, if any. -/
  ParseTemplate : FuncMap → String → Option String
  /-- The call `template.Execute(w, data)`: the bytes written to `w` and the error. -/
  Execute : Template → templateData → String × Option String
  /-- The call `os.ReadFile`. -/
  ReadFile : String → Except String String
  /-- The call `templates.GetDefaultTemplate()` of `internal/templates`. -/
  GetDefaultTemplate : Except String String

/-- The `funcMap` of `NewGeneratorWithTemplate` (generator.go lines 60-68). -/
def NewGeneratorWithTemplate.funcMap (env : RenderEnv) : FuncMap :=
  let funcMap : FuncMap := []
  let funcMap := gomap.assign funcMap "formatDate"
    (.timeString (fun t format => env.Format t format))
  let funcMap := gomap.assign funcMap "join" (.stringsString Join)
  gomap.assign funcMap "hasContent" (.stringBool (fun s => TrimSpace s != ""))

/-- NewGeneratorWithTemplate creates a new markdown generator with a custom template. -/
def NewGeneratorWithTemplate (env : RenderEnv) (tmplStr : String) : Except String Generator :=
  let funcMap := NewGeneratorWithTemplate.funcMap env
  match env.ParseTemplate funcMap tmplStr with
  | some err => .error ("failed to parse template: " ++ err)
  | none => .ok { template := { funcs := funcMap, text := tmplStr } }

/-- NewGenerator creates a new markdown generator with the default template. -/
def NewGenerator (env : RenderEnv) : Except String Generator :=
  match env.GetDefaultTemplate with
  | .error err => .error ("failed to get default template: " ++ err)
  | .ok defaultTmpl => NewGeneratorWithTemplate env defaultTmpl

/-- NewGeneratorFromFile creates a new markdown generator from a template file. -/
def NewGeneratorFromFile (env : RenderEnv) (templatePath : String) : Except String Generator :=
  match env.ReadFile templatePath with
  | .error err => .error ("failed to read template file: " ++ err)
  | .ok content => NewGeneratorWithTemplate env content

/-- The grouping loop of `Generate` (generator.go lines 101-104), continued from the
map built so far. -/
def Generate.group (env : RenderEnv) (opts : Options) :
    List Bookmark → gomap.Map (List Bookmark) → gomap.Map (List Bookmark)
  | [], GroupedBookmarks => GroupedBookmarks
  | bookmark :: rest, GroupedBookmarks =>
    let dateKey := env.Format bookmark.DateAdded opts.DateFormat
    Generate.group env opts rest
      (gomap.assign GroupedBookmarks dateKey (gomap.index GroupedBookmarks dateKey ++ [bookmark]))

/-- The `data` that `Generate` hands to the template (generator.go lines 91-105); `now`
is the reading of `time.Now()`. -/
def Generate.data (env : RenderEnv) (now : Time) (bookmarks : List Bookmark) (opts : Options) :
    templateData :=
  let data : templateData :=
    { Title := opts.Title
      Generated := env.Format now RFC3339
      Bookmarks := bookmarks
      GroupedBookmarks := none
      Options := opts }
  if opts.GroupByDate then
    { data with GroupedBookmarks := some (Generate.group env opts bookmarks []) }
  else data

/-- What one call of `Generate` does: the render context it executes the template on,
the bytes written to `w` and the error returned. -/
structure Generated where
  data : templateData
  written : String
  err : Option String

/-- Generate generates markdown from bookmarks and writes it to the writer. -/
def Generate (env : RenderEnv) (g : Generator) (now : Time) (bookmarks : List Bookmark)
    (opts : Options) : Generated :=
  let data := Generate.data env now bookmarks opts
  match env.Execute g.template data with
  | (written, some err) =>
    { data := data, written := written, err := some ("failed to execute template: " ++ err) }
  | (written, none) => { data := data, written := written, err := none }

end markdown

namespace cmd

open linkding markdown

/-- The settings `runFetch` reads from viper, one field per key. -/
structure Settings where
  linkding_url : String
  linkding_token : String
  linkding_timeout : Int
  fetch_since : String
  fetch_until : String
  fetch_days : Int
  fetch_query : String
  fetch_template : String
  fetch_title : String
  fetch_no_notes : Bool
  fetch_no_tags : Bool
  fetch_no_group_by_date : Bool
  fetch_date_format : String
  fetch_output : String
  deriving DecidableEq, Repr

/-- The standard library and the outside world as `runFetch` uses them beyond
`markdown.RenderEnv`. -/
structure CmdEnv extends markdown.RenderEnv where
  /-- The call `time.Parse(layout, value)`. -/
  ParseTime : String → String → Except String Time
  /-- The n-th reading of `time.Now()`. -/
  Now : Nat → Time
  /-- The method `time.Time.AddDate`. -/
  AddDate : Time → Int → Int → Int → Time
  /-- The error of `os.Create(path)`, if any. -/
  Create : String → Option String

/-- Severity of a log line. -/
inductive Level where
  | info
  | warn
  deriving DecidableEq, Repr

/-- The destination `Generate` writes to. -/
inductive Sink where
  | stdout
  | file (path : String)
  deriving DecidableEq, Repr

/-- The effects of a run: log lines, requests handed to the HTTP client, the number of
clock readings, files created, and the calls of `Generate` with their destination. -/
structure Effects where
  log : List (Level × String)
  sent : List Request
  clock : Nat
  created : List String
  generated : List (Sink × Generated)

/-- The tail of `runFetch` after the emptiness test (fetch.go lines 136-184). -/
def runFetch.render (env : CmdEnv) (v : Settings) (bookmarks : List Bookmark) (w : Effects) :
    Option String × Effects :=
  let templatePath := v.fetch_template
  let made : Except String Generator × Effects :=
    if templatePath ≠ "" then
      let w : Effects := { w with log := w.log ++ [(.info, "Using custom template: " ++ templatePath)] }
      match NewGeneratorFromFile env.toRenderEnv templatePath with
      | .error err =>
        (.error ("failed to create markdown generator from template: " ++ err), w)
      | .ok generator => (.ok generator, w)
    else
      match NewGenerator env.toRenderEnv with
      | .error err => (.error ("failed to create markdown generator: " ++ err), w)
      | .ok generator => (.ok generator, w)
  match made with
  | (.error err, w) => (some err, w)
  | (.ok generator, w) =>
    let opts : Options :=
      { Title := v.fetch_title
        IncludeNotes := !v.fetch_no_notes
        IncludeTags := !v.fetch_no_tags
        GroupByDate := !v.fetch_no_group_by_date
        DateFormat := v.fetch_date_format }
    let outputPath := v.fetch_output
    let opened : Except String Sink × Effects :=
      if outputPath ≠ "" then
        match env.Create outputPath with
        | some err => (.error ("failed to create output file: " ++ err), w)
        | none =>
          (.ok (.file outputPath),
            { w with
              created := w.created ++ [outputPath]
              log := w.log ++ [(.info, "Writing output to " ++ outputPath)] })
      else (.ok .stdout, w)
    match opened with
    | (.error err, w) => (some err, w)
    | (.ok output, w) =>
      let g := Generate env.toRenderEnv generator (env.Now w.clock) bookmarks opts
      let w : Effects := { w with clock := w.clock + 1, generated := w.generated ++ [(output, g)] }
      match g.err with
      | some err => (some ("failed to generate markdown: " ++ err), w)
      | none =>
        if outputPath ≠ "" then
          (none,
            { w with
              log := w.log ++ [(.info, "Successfully wrote markdown to " ++ outputPath)] })
        else (none, w)

/-- The command `runFetch`: the error it returns (`none` for nil) and the effects, or
`none` while `FetchAllBookmarks` is still running after `n` loop iterations. -/
def runFetch (env : CmdEnv) (n : Nat) (v : Settings) (w : Effects) :
    Option (Option String × Effects) :=
  let linkdingURL := v.linkding_url
  let linkdingToken := v.linkding_token
  let timeout := v.linkding_timeout
  if linkdingURL = "" then some (some "Linkding URL is required (--url or config file)", w)
  else if linkdingToken = "" then
    some (some "Linkding API token is required (--token or config file)", w)
  else
    let w : Effects := { w with log := w.log ++ [(.info, "Connecting to Linkding at " ++ linkdingURL)] }
    match NewClient linkdingURL linkdingToken timeout with
    | .error err => some (some ("failed to create Linkding client: " ++ err), w)
    | .ok client =>
      let zero : Time := ⟨0, 0, 0⟩
      let sinceStr := v.fetch_since
      let untilStr := v.fetch_until
      let days := v.fetch_days
      let since : Except String Time × Effects :=
        if sinceStr ≠ "" then
          match env.ParseTime "2006-01-02" sinceStr with
          | .error err =>
            (.error ("invalid --since date format (use YYYY-MM-DD): " ++ err), w)
          | .ok t => (.ok t, w)
        else if days > 0 then
          (.ok (env.AddDate (env.Now w.clock) 0 0 (-days)), { w with clock := w.clock + 1 })
        else (.ok zero, w)
      match since with
      | (.error err, w) => some (some err, w)
      | (.ok addedSince, w) =>
        let untilT : Except String Time :=
          if untilStr ≠ "" then
            match env.ParseTime "2006-01-02" untilStr with
            | .error err => .error ("invalid --until date format (use YYYY-MM-DD): " ++ err)
            | .ok t => .ok t
          else .ok zero
        match untilT with
        | .error err => some (some err, w)
        | .ok addedUntil =>
          let query := v.fetch_query
          let w : Effects :=
            { w with
              log := w.log ++
                [(.info, "Fetching bookmarks since " ++ env.Format addedSince "2006-01-02")] }
          match FetchAllBookmarks env.toEnv n client query addedSince addedUntil w.sent with
          | .running _ => none
          | .returned r =>
            let w : Effects := { w with sent := r.sent }
            match r.err with
            | some err => some (some ("failed to fetch bookmarks: " ++ err), w)
            | none =>
              let bookmarks := r.bookmarks
              let w : Effects :=
                { w with
                  log := w.log ++
                    [(.info, "Fetched " ++ fmtD bookmarks.length ++ " bookmarks")] }
              if bookmarks.length = 0 then
                some (none,
                  { w with
                    log := w.log ++ [(.warn, "No bookmarks found matching the criteria")] })
              else some (runFetch.render env v bookmarks w)

end cmd

namespace examples

open linkding markdown cmd

/-- A bookmark with the given id and time of addition, all other fields empty. -/
def record (id : Int) (added : Time) : Bookmark :=
  { ID := id, URL := "", Title := "", Description := "", Notes := "", WebsiteTitle := "",
    WebsiteDescription := "", IsArchived := false, Unread := false, Shared := false,
    TagNames := [], DateAdded := added, DateModified := added }

/-- A scripted remote service.  The response body is the text of the `offset` parameter
(`0` when it is absent); `status` gives the status code per offset text (200 when not
listed) and `pages` the `results` the body decodes to. -/
def service (pages : gomap.Map (List Bookmark)) (status : gomap.Map Int) : linkding.Env :=
  { Format := fun t layout => if layout = "2006-01-02" then t.isoDate else layout
    NewRequest := fun _ _ => none
    Do := fun _ req =>
      let offset :=
        match gomap.lookup req.URL.RawQuery "offset" with
        | some [v] => v
        | _ => "0"
      .response ((gomap.lookup status offset).getD 200) offset none
    Unmarshal := fun body =>
      match gomap.lookup pages body with
      | some results => .ok { Count := 0, Next := none, Previous := none, Results := results }
      | none => .error "unexpected end of JSON input" }

/-- A client for the scripted service. -/
def client : Client :=
  { BaseURL := "https://links.example", Token := "t0ken", HTTPClient := { Timeout := 30 } }

/-- January 1, 2025, 00:00:00 UTC. -/
def jan1 : Time := Date 2025 1 1 0 0 0

/-- January 2, 2025, 00:00:00 UTC. -/
def jan2 : Time := Date 2025 1 2 0 0 0

/-- The records numbered `0 .. n-1`, all added on January 1, 2025. -/
def records (n : Nat) : List Bookmark :=
  (List.range n).map (fun (i : Nat) => record (i : Int) jan1)

/-- A service holding 250 records, served in pages of 100. -/
def service250 : linkding.Env :=
  service
    [("0", ((records 250).drop 0).take 100), ("100", ((records 250).drop 100).take 100),
      ("200", ((records 250).drop 200).take 100)] []

/-- A service whose first page is full and whose second page is a single record. -/
def service101 : linkding.Env :=
  service [("0", records 100), ("100", [record 100 jan2])] []

/-- A service whose first page is full and which answers 500 at offset 100. -/
def service500 : linkding.Env := service [("0", records 100)] [("100", 500)]

/-- A service that ignores `limit`: 101 records on the first page, none afterwards. -/
def serviceOverfull : linkding.Env := service [("0", records 101), ("100", [])] []

/-- A service with no records at all. -/
def serviceEmpty : linkding.Env := service [("0", [])] []

/-- A service whose first page is full and whose second page is a single record; its
decoder also accepts a body of 101 records that the service never sends. -/
def serviceStray : linkding.Env :=
  service [("0", records 100), ("100", [record 100 jan2]), ("stray", records 101)] []

/-- A service that holds three records, none of them added since any bound: a request
that carries `added_since` gets an empty page, a request without it gets the records. -/
def serviceSince : linkding.Env :=
  { service [("0", records 3), ("since", [])] [] with
    Do := fun _ req =>
      match gomap.lookup req.URL.RawQuery "added_since" with
      | some _ => .response 200 "since" none
      | none => .response 200 "0" none }

/-- The rest of the outside world around a scripted service: every template parses and
renders to its own source text, no file can be read, every file can be created. -/
def world (net : linkding.Env) : CmdEnv :=
  { toEnv := net
    ParseTemplate := fun _ _ => none
    Execute := fun t _ => (t.text, none)
    ReadFile := fun _ => .error "no such file or directory"
    GetDefaultTemplate := .ok "# bookmarks"
    ParseTime := fun _ value => if value = "2025-01-01" then .ok jan1 else .error "cannot parse"
    Now := fun _ => jan2
    AddDate := fun t _ _ days => { t with sec := t.sec + days * 86400 }
    Create := fun _ => none }

/-- Settings as the flags default them, with the connection filled in. -/
def settings : Settings :=
  { linkding_url := "https://links.example"
    linkding_token := "t0ken"
    linkding_timeout := 30
    fetch_since := ""
    fetch_until := ""
    fetch_days := 7
    fetch_query := ""
    fetch_template := ""
    fetch_title := "Bookmarks"
    fetch_no_notes := false
    fetch_no_tags := false
    fetch_no_group_by_date := false
    fetch_date_format := "2006-01-02"
    fetch_output := "" }

/-- No effects yet. -/
def quiet : Effects := { log := [], sent := [], clock := 0, created := [], generated := [] }

end examples

/-! ## Go maps -/

namespace gomap

/-- After `m[k] = v`, looking up `k` gives `v` and every other key is unchanged. -/
theorem lookup_assign {β : Type} (m : Map β) (k k' : String) (v : β) :
    lookup (assign m k v) k' = if k = k' then some v else lookup m k' := by
  induction m with
  | nil => simp [assign, lookup]
  | cons p m ih =>
    obtain ⟨k0, v0⟩ := p
    by_cases h0 : k0 = k
    · subst h0
      by_cases h1 : k0 = k' <;> simp [assign, lookup, h1]
    · by_cases h1 : k0 = k'
      · subst h1
        have : ¬ k = k0 := fun h => h0 h.symm
        simp [assign, lookup, h0, this]
      · simp [assign, lookup, h0, h1, ih]

/-- The assignment `m[k] = v` adds `k` to the keys exactly when it was absent. -/
theorem keys_assign {β : Type} (m : Map β) (k : String) (v : β) :
    keys (assign m k v) = if k ∈ keys m then keys m else keys m ++ [k] := by
  induction m with
  | nil => simp [assign, keys]
  | cons p m ih =>
    obtain ⟨k0, v0⟩ := p
    by_cases h0 : k0 = k
    · subst h0; simp [assign, keys]
    · have h0' : ¬ k = k0 := fun h => h0 h.symm
      simp only [keys] at ih
      by_cases hm : k ∈ List.map Prod.fst m
      · simp [assign, keys, h0, h0', ih, hm]
      · simp [assign, keys, h0, h0', ih, hm]

/-- A lookup fails exactly on the keys that are not in the map. -/
theorem lookup_eq_none_iff {β : Type} (m : Map β) (k : String) :
    lookup m k = none ↔ k ∉ keys m := by
  induction m with
  | nil => simp [lookup, keys]
  | cons p m ih =>
    obtain ⟨k0, v0⟩ := p
    simp only [keys] at ih
    by_cases h0 : k0 = k
    · simp [lookup, keys, h0]
    · have h0' : ¬ k = k0 := fun h => h0 h.symm
      simp [lookup, keys, h0, h0', ih]

/-- Assignment keeps the keys of a map distinct. -/
theorem nodup_keys_assign {β : Type} (m : Map β) (k : String) (v : β)
    (h : (keys m).Nodup) : (keys (assign m k v)).Nodup := by
  rw [keys_assign]
  split
  · exact h
  · next hk =>
    rw [List.nodup_append]
    refine ⟨h, List.nodup_singleton k, ?_⟩
    intro a ha hb
    simp only [List.mem_singleton] at hb
    subst hb
    exact hk ha

/-- Indexing after `m[k] = v`. -/
theorem index_assign {α : Type} (m : Map (List α)) (k k' : String) (v : List α) :
    index (assign m k v) k' = if k = k' then v else index m k' := by
  simp only [index, lookup_assign]
  split <;> rfl

end gomap

/-! ## The paginated fetch client -/

namespace linkding

/-- A decodable 200 makes `FetchBookmarks` return the decoded `results` and log the request. -/
theorem FetchBookmarks_of_Serves {env : Env} {c : Client} {query : String}
    {addedSince modifiedSince : Time} {offset : Int} {results : List Bookmark}
    (h : Serves env c query addedSince modifiedSince offset results) (sent : List Request) :
    FetchBookmarks env c query addedSince modifiedSince 100 offset sent =
      ⟨results, none,
        sent ++ [FetchBookmarks.req env c query addedSince modifiedSince 100 offset]⟩ := by
  obtain ⟨hnew, body, response, hdo, hjson, hres⟩ := h
  simp [FetchBookmarks, hnew, hdo, hjson, hres, StatusOK]

/-- A full page (at least `limit` records) is accumulated and the loop goes on at the next offset. -/
theorem body_of_full {env : Env} {c : Client} {query : String}
    {addedSince modifiedSince : Time} {s : LoopState} {results : List Bookmark}
    (h : Serves env c query addedSince modifiedSince s.offset results)
    (hfull : 100 ≤ results.length) :
    FetchAllBookmarks.body env c query addedSince modifiedSince 100 s =
      .running ⟨s.allBookmarks ++ results, s.offset + 100,
        s.sent ++ [FetchBookmarks.req env c query addedSince modifiedSince 100 s.offset]⟩ := by
  have hne : results.length ≠ 0 := by omega
  have hnlt : ¬ ((results.length : Int) < 100) := by omega
  simp [FetchAllBookmarks.body, FetchBookmarks_of_Serves h, hne, hnlt]

/-- A short or empty page is accumulated and the function returns. -/
theorem body_of_short {env : Env} {c : Client} {query : String}
    {addedSince modifiedSince : Time} {s : LoopState} {results : List Bookmark}
    (h : Serves env c query addedSince modifiedSince s.offset results)
    (hshort : results.length < 100) :
    FetchAllBookmarks.body env c query addedSince modifiedSince 100 s =
      .returned ⟨s.allBookmarks ++ results, none,
        s.sent ++ [FetchBookmarks.req env c query addedSince modifiedSince 100 s.offset]⟩ := by
  have hlt : ((results.length : Int) < 100) := by omega
  by_cases h0 : results = []
  · simp [FetchAllBookmarks.body, FetchBookmarks_of_Serves h, h0]
  · simp [FetchAllBookmarks.body, FetchBookmarks_of_Serves h, h0, hlt]


/-- Running `k + n` iterations is running `k` and then `n` more. -/
theorem loop_add (env : Env) (c : Client) (query : String) (addedSince modifiedSince : Time)
    (limit : Int) (k n : Nat) (s : LoopState) :
    FetchAllBookmarks.loop env c query addedSince modifiedSince limit (k + n) s =
      match FetchAllBookmarks.loop env c query addedSince modifiedSince limit k s with
      | .running s' => FetchAllBookmarks.loop env c query addedSince modifiedSince limit n s'
      | .returned r => .returned r := by
  induction k generalizing s with
  | zero => simp [FetchAllBookmarks.loop]
  | succ k ih =>
    rw [Nat.succ_add]
    simp only [FetchAllBookmarks.loop]
    cases hb : FetchAllBookmarks.body env c query addedSince modifiedSince limit s with
    | running s' => simpa using ih s'
    | returned r => rfl

/-- After `k` full pages the loop is at offset `100 * k` with the pages concatenated. -/
theorem loop_of_full {env : Env} {c : Client} {query : String}
    {addedSince modifiedSince : Time} (k : Nat) (s : LoopState) (page : Nat → List Bookmark)
    (hserve : ∀ j < k, Serves env c query addedSince modifiedSince (s.offset + 100 * j) (page j))
    (hfull : ∀ j < k, 100 ≤ (page j).length) :
    FetchAllBookmarks.loop env c query addedSince modifiedSince 100 k s =
      .running ⟨s.allBookmarks ++ (List.range k).flatMap page, s.offset + 100 * k,
        s.sent ++ (List.range k).map (fun (j : Nat) =>
          FetchBookmarks.req env c query addedSince modifiedSince 100
            (s.offset + 100 * (j : Int)))⟩ := by
  induction k generalizing s page with
  | zero => simp [FetchAllBookmarks.loop]
  | succ k ih =>
    have h0 : Serves env c query addedSince modifiedSince s.offset (page 0) := by
      simpa using hserve 0 (Nat.succ_pos k)
    have e : ∀ j : Nat, s.offset + 100 + 100 * (j : Int) = s.offset + 100 * ((j + 1 : Nat) : Int) := by
      intro j; push_cast; ring
    simp only [FetchAllBookmarks.loop, body_of_full h0 (hfull 0 (Nat.succ_pos k))]
    rw [ih _ (fun j => page (j + 1))]
    · have e1 : s.offset + 100 + 100 * (k : Int) = s.offset + 100 * ((k + 1 : Nat) : Int) := e k
      simp only [List.range_succ_eq_map, List.flatMap_cons, List.map_cons, List.flatMap_map,
        List.map_map, List.append_assoc, List.singleton_append, e1, Function.comp,
        Nat.succ_eq_add_one, e]
      simp
    · intro j hj
      have := hserve (j + 1) (Nat.succ_lt_succ hj)
      simp only at this ⊢
      rw [e]; exact this
    · intro j hj
      exact hfull (j + 1) (Nat.succ_lt_succ hj)

/-- A response whose status is not 200 makes the loop return the wrapped error and no records. -/
theorem body_of_status {env : Env} {c : Client} {query : String}
    {addedSince modifiedSince : Time} {s : LoopState} {code : Int} {body : String}
    {readErr : Option String}
    (hnew : env.NewRequest "GET"
      (FetchBookmarks.apiURL env c query addedSince modifiedSince 100 s.offset) = none)
    (hdo : env.Do c.HTTPClient
      (FetchBookmarks.req env c query addedSince modifiedSince 100 s.offset) =
        .response code body readErr)
    (hcode : code ≠ 200) :
    FetchAllBookmarks.body env c query addedSince modifiedSince 100 s =
      .returned ⟨[], some ("failed to fetch bookmarks at offset " ++ fmtD s.offset ++
          ": " ++ ("API request failed with status " ++ fmtD code ++ ": " ++ body)),
        s.sent ++ [FetchBookmarks.req env c query addedSince modifiedSince 100 s.offset]⟩ := by
  simp [FetchAllBookmarks.body, FetchBookmarks, hnew, hdo, StatusOK, hcode]

/-- Full pages followed by a short one: the result is their concatenation, after `k + 1` requests. -/
theorem loop_of_pages {env : Env} {c : Client} {query : String}
    {addedSince modifiedSince : Time} (k : Nat) (sent : List Request)
    (page : Nat → List Bookmark)
    (hserve : ∀ j ≤ k, Serves env c query addedSince modifiedSince (100 * j) (page j))
    (hfull : ∀ j < k, 100 ≤ (page j).length) (hshort : (page k).length < 100)
    (n : Nat) (hn : k < n) :
    FetchAllBookmarks env n c query addedSince modifiedSince sent =
      .returned ⟨(List.range (k + 1)).flatMap page, none,
        sent ++ (List.range (k + 1)).map (fun (j : Nat) =>
          FetchBookmarks.req env c query addedSince modifiedSince 100 (100 * (j : Int)))⟩ := by
  obtain ⟨m, rfl⟩ : ∃ m, n = k + (m + 1) := ⟨n - k - 1, by omega⟩
  have hk := hserve k (le_refl k)
  show FetchAllBookmarks.loop env c query addedSince modifiedSince 100 (k + (m + 1))
    ⟨[], 0, sent⟩ = _
  rw [loop_add, loop_of_full k _ page (by simpa using fun j hj => hserve j (le_of_lt hj)) hfull]
  simp only [FetchAllBookmarks.loop]
  rw [body_of_short (by simpa using hk) hshort]
  simp [List.range_succ]


/-- Cutting a list into consecutive slices of 100 and joining them gives the list back. -/
theorem chunks_join (k : Nat) (l : List Bookmark) (hk : l.length / 100 = k) :
    (List.range (k + 1)).flatMap (fun j => (l.drop (100 * j)).take 100) = l := by
  induction k generalizing l with
  | zero =>
    have : l.length < 100 := by omega
    simp [List.range_succ, List.take_of_length_le (le_of_lt this)]
  | succ k ih =>
    have hlen : (l.drop 100).length / 100 = k := by
      rw [List.length_drop]; omega
    have := ih (l.drop 100) hlen
    rw [List.range_succ_eq_map, List.flatMap_cons, List.flatMap_map]
    simp only [Function.comp, Nat.succ_eq_add_one, Nat.mul_zero, List.drop_zero]
    have e : ∀ j, List.drop (100 * (j + 1)) l = List.drop (100 * j) (List.drop 100 l) := by
      intro j; rw [List.drop_drop]; congr 1; ring
    simp only [e, this, List.take_append_drop]

/-- C1. Let the server be a function from request offset to a page, every request at
offsets `0, 100, ..., 100 * k` being answered by a decodable 200, and let `k` be the index
of the first page with fewer than 100 records.  Then `FetchAllBookmarks` returns (within
`k + 1` loop iterations, so for every bound `n > k`) exactly the concatenation, in order,
of the pages at offsets `0, 100, ..., 100 * k`, with no error, having issued exactly the
requests for those offsets: nothing is reordered, dropped or deduplicated. -/
theorem FetchAllBookmarks_concatenates_pages (env : Env) (c : Client) (query : String)
    (addedSince modifiedSince : Time) (sent : List Request) (server : Int → List Bookmark)
    (k : Nat)
    (hserve : ∀ j ≤ k,
      Serves env c query addedSince modifiedSince (100 * (j : Int)) (server (100 * (j : Int))))
    (hfull : ∀ j < k, ¬ (server (100 * (j : Int))).length < 100)
    (hshort : (server (100 * (k : Int))).length < 100) (n : Nat) (hn : k < n) :
    FetchAllBookmarks env n c query addedSince modifiedSince sent =
      .returned
        { bookmarks := (List.range (k + 1)).flatMap (fun (j : Nat) => server (100 * (j : Int)))
          err := none
          sent := sent ++ (List.range (k + 1)).map (fun (j : Nat) =>
            FetchBookmarks.req env c query addedSince modifiedSince 100 (100 * (j : Int))) } :=
  loop_of_pages k sent (fun j => server (100 * (j : Int))) hserve
    (fun j hj => Nat.le_of_not_lt (hfull j hj)) hshort n hn

/-- C1 at a concrete service: a full first page of 100 records and a second page of one
record are returned as their concatenation after two requests. -/
theorem FetchAllBookmarks_concatenates_pages_witness :
    FetchAllBookmarks examples.service101 2 examples.client "" ⟨0, 0, 0⟩ ⟨0, 0, 0⟩ [] =
      .returned
        { bookmarks := (List.range (1 + 1)).flatMap (fun (j : Nat) =>
            (fun (o : Int) => if o = 0 then examples.records 100
              else [examples.record 100 examples.jan2]) (100 * (j : Int)))
          err := none
          sent := [] ++ (List.range (1 + 1)).map (fun (j : Nat) =>
            FetchBookmarks.req examples.service101 examples.client "" ⟨0, 0, 0⟩ ⟨0, 0, 0⟩ 100
              (100 * (j : Int))) } :=
  FetchAllBookmarks_concatenates_pages examples.service101 examples.client "" ⟨0, 0, 0⟩
    ⟨0, 0, 0⟩ []
    (fun o => if o = 0 then examples.records 100 else [examples.record 100 examples.jan2]) 1
    (by
      intro j hj
      interval_cases j
      · exact ⟨rfl, "0", _, rfl, rfl, rfl⟩
      · exact ⟨rfl, "100", _, rfl, rfl, rfl⟩)
    (by
      intro j hj
      interval_cases j
      simp [examples.records])
    (by simp) 2 (by decide)

/-- C2. Against a server that holds the `N` records `records` and answers the request at
offset `o` with the records `o .. min (o + 100) N - 1`, `FetchAllBookmarks` returns all
`N` records and no error after exactly `N / 100 + 1` requests, issued for the offsets
`0, 100, 200, ...` in that order; for `N = 250` these are the three requests for offsets
0, 100 and 200. -/
theorem FetchAllBookmarks_fixed_total (env : Env) (c : Client) (query : String)
    (addedSince modifiedSince : Time) (sent : List Request) (records : List Bookmark)
    (hserve : ∀ j ≤ records.length / 100,
      Serves env c query addedSince modifiedSince (100 * (j : Int))
        ((records.drop (100 * j)).take 100))
    (n : Nat) (hn : records.length / 100 < n) :
    FetchAllBookmarks env n c query addedSince modifiedSince sent =
        .returned
          { bookmarks := records
            err := none
            sent := sent ++ (List.range (records.length / 100 + 1)).map (fun (j : Nat) =>
              FetchBookmarks.req env c query addedSince modifiedSince 100 (100 * (j : Int))) } ∧
      (records.length = 250 →
        FetchAllBookmarks env n c query addedSince modifiedSince sent =
          .returned
            { bookmarks := records
              err := none
              sent := sent ++
                [FetchBookmarks.req env c query addedSince modifiedSince 100 0,
                  FetchBookmarks.req env c query addedSince modifiedSince 100 100,
                  FetchBookmarks.req env c query addedSince modifiedSince 100 200] }) := by
  have main := loop_of_pages (records.length / 100) sent
    (fun j => (records.drop (100 * j)).take 100) hserve
    (by
      intro j hj
      simp only [List.length_take, List.length_drop]
      omega)
    (by
      simp only [List.length_take, List.length_drop]
      omega) n hn
  rw [chunks_join _ records rfl] at main
  refine ⟨main, fun h250 => ?_⟩
  rw [main, h250]
  rfl

/-- C2 at a concrete service holding 250 records: all of them are returned after the
three requests for offsets 0, 100 and 200. -/
theorem FetchAllBookmarks_fixed_total_witness :
    FetchAllBookmarks examples.service250 3 examples.client "" ⟨0, 0, 0⟩ ⟨0, 0, 0⟩ [] =
      .returned
        { bookmarks := examples.records 250
          err := none
          sent := [] ++
            [FetchBookmarks.req examples.service250 examples.client "" ⟨0, 0, 0⟩ ⟨0, 0, 0⟩ 100 0,
              FetchBookmarks.req examples.service250 examples.client "" ⟨0, 0, 0⟩ ⟨0, 0, 0⟩ 100
                100,
              FetchBookmarks.req examples.service250 examples.client "" ⟨0, 0, 0⟩ ⟨0, 0, 0⟩ 100
                200] } :=
  (FetchAllBookmarks_fixed_total examples.service250 examples.client "" ⟨0, 0, 0⟩ ⟨0, 0, 0⟩ []
    (examples.records 250)
    (by
      have h : (examples.records 250).length / 100 = 2 := by simp [examples.records]
      rw [h]
      intro j hj
      interval_cases j
      · exact ⟨rfl, "0", _, rfl, rfl, rfl⟩
      · exact ⟨rfl, "100", _, rfl, rfl, rfl⟩
      · exact ⟨rfl, "200", _, rfl, rfl, rfl⟩)
    3 (by simp [examples.records])).2 (by simp [examples.records])

/-- C3. After any list `pages` of `k` full-size successful pages, if the request for page
`k` is answered with a status `code` other than 200, `FetchAllBookmarks` returns with no
further request (the log ends with the request for offset `100 * k`), with an error whose
message carries the offset and that status code, and with an empty record sequence: none
of the records of the earlier pages is returned. -/
theorem FetchAllBookmarks_aborts_on_status (env : Env) (c : Client) (query : String)
    (addedSince modifiedSince : Time) (sent : List Request) (pages : List (List Bookmark))
    (code : Int) (body : String) (readErr : Option String)
    (hserve : ∀ (j : Nat) (h : j < pages.length),
      Serves env c query addedSince modifiedSince (100 * (j : Int)) (pages.get ⟨j, h⟩))
    (hfull : ∀ page ∈ pages, 100 ≤ page.length)
    (hnew : env.NewRequest "GET"
      (FetchBookmarks.apiURL env c query addedSince modifiedSince 100 (100 * pages.length))
        = none)
    (hdo : env.Do c.HTTPClient
      (FetchBookmarks.req env c query addedSince modifiedSince 100 (100 * pages.length)) =
        .response code body readErr)
    (hcode : code ≠ 200) (n : Nat) (hn : pages.length < n) :
    FetchAllBookmarks env n c query addedSince modifiedSince sent =
      .returned
        { bookmarks := []
          err := some ("failed to fetch bookmarks at offset " ++ fmtD (100 * pages.length) ++
            ": API request failed with status " ++ fmtD code ++ ": " ++ body)
          sent := sent ++ (List.range (pages.length + 1)).map (fun (j : Nat) =>
            FetchBookmarks.req env c query addedSince modifiedSince 100 (100 * (j : Int))) } := by
  obtain ⟨m, rfl⟩ : ∃ m, n = pages.length + (m + 1) := ⟨n - pages.length - 1, by omega⟩
  show FetchAllBookmarks.loop env c query addedSince modifiedSince 100
    (pages.length + (m + 1)) ⟨[], 0, sent⟩ = _
  rw [loop_add, loop_of_full pages.length _ (fun j => pages.getD j [])
    (by
      intro j hj
      simp only [List.getD_eq_getElem _ _ hj]
      simpa using hserve j hj)
    (by
      intro j hj
      simp only [List.getD_eq_getElem _ _ hj]
      exact hfull _ (List.getElem_mem _))]
  simp only [FetchAllBookmarks.loop]
  rw [body_of_status (by simpa using hnew) (by simpa using hdo) hcode]
  have e : ∀ x : String, ": " ++ ("API request failed with status " ++ x) =
      ": API request failed with status " ++ x :=
    fun x => by rw [← String.append_assoc]; rfl
  simp [List.range_succ, String.append_assoc, e]

/-- C3 at a concrete service: one full page, then status 500 at offset 100. -/
theorem FetchAllBookmarks_aborts_on_status_witness :
    FetchAllBookmarks examples.service500 2 examples.client "" ⟨0, 0, 0⟩ ⟨0, 0, 0⟩ [] =
      .returned
        { bookmarks := []
          err := some ("failed to fetch bookmarks at offset " ++
            fmtD (100 * [examples.records 100].length) ++
            ": API request failed with status " ++ fmtD 500 ++ ": " ++ "100")
          sent := [] ++ (List.range ([examples.records 100].length + 1)).map (fun (j : Nat) =>
            FetchBookmarks.req examples.service500 examples.client "" ⟨0, 0, 0⟩ ⟨0, 0, 0⟩ 100
              (100 * (j : Int))) } :=
  FetchAllBookmarks_aborts_on_status examples.service500 examples.client "" ⟨0, 0, 0⟩
    ⟨0, 0, 0⟩ [] [examples.records 100] 500 "100" none
    (by
      intro j hj
      have hj1 : j < 1 := by simpa using hj
      interval_cases j
      exact ⟨rfl, "0", _, rfl, rfl, rfl⟩)
    (by simp [examples.records]) rfl rfl (by decide) 2 (by decide)

/-- One call of `FetchBookmarks` logs at most the one request it builds, and exactly that one when it succeeds. -/
theorem FetchBookmarks_sent (env : Env) (c : Client) (query : String)
    (addedSince modifiedSince : Time) (limit offset : Int) (sent : List Request) :
    ((FetchBookmarks env c query addedSince modifiedSince limit offset sent).sent = sent ∧
        (FetchBookmarks env c query addedSince modifiedSince limit offset sent).err ≠ none) ∨
      (FetchBookmarks env c query addedSince modifiedSince limit offset sent).sent =
        sent ++ [FetchBookmarks.req env c query addedSince modifiedSince limit offset] := by
  unfold FetchBookmarks
  simp only
  split
  · left; simp
  · right
    split
    · rfl
    · split
      · rfl
      · split
        · rfl
        · split <;> rfl

/-- What an iteration that continues has done to the loop variables. -/
theorem body_running {env : Env} {c : Client} {query : String}
    {addedSince modifiedSince : Time} {limit : Int} {s s' : LoopState}
    (h : FetchAllBookmarks.body env c query addedSince modifiedSince limit s = .running s') :
    s'.offset = s.offset + limit ∧
      s'.sent = s.sent ++ [FetchBookmarks.req env c query addedSince modifiedSince limit s.offset] ∧
      s'.allBookmarks = s.allBookmarks ++
        (FetchBookmarks env c query addedSince modifiedSince limit s.offset s.sent).bookmarks ∧
      limit ≤ (FetchBookmarks env c query addedSince modifiedSince limit s.offset
        s.sent).bookmarks.length := by
  unfold FetchAllBookmarks.body at h
  simp only at h
  split at h
  · cases h
  · next herr =>
    split at h
    · cases h
    · split at h
      · cases h
      · next hlt =>
        cases h
        rcases FetchBookmarks_sent env c query addedSince modifiedSince limit s.offset s.sent with
          ⟨_, hne⟩ | hs
        · exact absurd herr hne
        · exact ⟨rfl, hs, rfl, not_lt.mp hlt⟩

/-- An iteration that returns has logged at most its own request. -/
theorem body_returned {env : Env} {c : Client} {query : String}
    {addedSince modifiedSince : Time} {limit : Int} {s : LoopState} {r : Fetched}
    (h : FetchAllBookmarks.body env c query addedSince modifiedSince limit s = .returned r) :
    r.sent = s.sent ∨
      r.sent = s.sent ++ [FetchBookmarks.req env c query addedSince modifiedSince limit s.offset] := by
  have hs := FetchBookmarks_sent env c query addedSince modifiedSince limit s.offset s.sent
  unfold FetchAllBookmarks.body at h
  simp only at h
  have key : r.sent =
      (FetchBookmarks env c query addedSince modifiedSince limit s.offset s.sent).sent := by
    split at h
    · cases h; rfl
    · split at h
      · cases h; rfl
      · split at h
        · cases h; rfl
        · cases h
  rw [key]
  rcases hs with ⟨hs, _⟩ | hs
  · exact Or.inl hs
  · exact Or.inr hs

/-- The requests of a run are, in order, those for the offsets `offset, offset + limit, ...`. -/
theorem loop_sent (env : Env) (c : Client) (query : String) (addedSince modifiedSince : Time)
    (limit : Int) (n : Nat) (s : LoopState) :
    ∃ m ≤ n, (FetchAllBookmarks.loop env c query addedSince modifiedSince limit n s).sent =
      s.sent ++ (List.range m).map (fun (j : Nat) =>
        FetchBookmarks.req env c query addedSince modifiedSince limit
          (s.offset + limit * (j : Int))) := by
  induction n generalizing s with
  | zero => exact ⟨0, le_refl 0, by simp [FetchAllBookmarks.loop, Run.sent]⟩
  | succ n ih =>
    simp only [FetchAllBookmarks.loop]
    cases hb : FetchAllBookmarks.body env c query addedSince modifiedSince limit s with
    | running s' =>
      obtain ⟨ho, hs, _, _⟩ := body_running hb
      obtain ⟨m, hm, hsent⟩ := ih s'
      refine ⟨m + 1, Nat.succ_le_succ hm, ?_⟩
      simp only [hsent, hs, ho, List.range_succ_eq_map, List.map_cons, List.map_map,
        List.append_assoc, List.singleton_append]
      congr 2
      · simp
      · apply List.map_congr_left
        intro j _
        simp only [Function.comp, Nat.succ_eq_add_one]
        congr 1
        push_cast; ring
    | returned r =>
      rcases body_returned hb with h | h
      · exact ⟨0, Nat.zero_le _, by simp [Run.sent, h]⟩
      · exact ⟨1, Nat.succ_le_succ (Nat.zero_le _), by simp [Run.sent, h, List.range_succ]⟩

/-- At the head of iteration `n` the offset has advanced by `n * limit`. -/
theorem loop_running {env : Env} {c : Client} {query : String}
    {addedSince modifiedSince : Time} {limit : Int} (n : Nat) (s s' : LoopState)
    (h : FetchAllBookmarks.loop env c query addedSince modifiedSince limit n s = .running s') :
    s'.offset = s.offset + limit * n := by
  induction n generalizing s with
  | zero =>
    simp only [FetchAllBookmarks.loop] at h
    cases h
    simp
  | succ n ih =>
    simp only [FetchAllBookmarks.loop] at h
    cases hb : FetchAllBookmarks.body env c query addedSince modifiedSince limit s with
    | running s1 =>
      rw [hb] at h
      obtain ⟨ho, _, _, _⟩ := body_running hb
      rw [ih s1 h, ho]; push_cast; ring
    | returned r => rw [hb] at h; cases h

/-- A call of `FetchBookmarks` that returns no error was answered by a decodable 200 whose
`results` are the records it returns. -/
theorem FetchBookmarks_ok_Serves (env : Env) (c : Client) (query : String)
    (addedSince modifiedSince : Time) (offset : Int) (sent : List Request)
    (h : (FetchBookmarks env c query addedSince modifiedSince 100 offset sent).err = none) :
    Serves env c query addedSince modifiedSince offset
      (FetchBookmarks env c query addedSince modifiedSince 100 offset sent).bookmarks := by
  unfold FetchBookmarks at h ⊢
  simp only at h ⊢
  split at h
  · cases h
  · next hnew =>
    split at h
    · cases h
    · next code body readErr hdo =>
      split at h
      · cases h
      · next hcode =>
        split at h
        · cases h
        · split at h
          · cases h
          · next response hjson =>
            have hc : code = 200 := by simpa [StatusOK] using hcode
            subst hc
            refine ⟨hnew, body, response, hdo, hjson, ?_⟩
            simp [hnew, hdo, hjson, StatusOK]

/-- When none of the pages served at the offsets of the first `n` iterations holds more
than 100 records, `n` iterations that all continue accumulate exactly `100 * n`
records. -/
theorem loop_running_count {env : Env} {c : Client} {query : String}
    {addedSince modifiedSince : Time} (n : Nat) (s s' : LoopState)
    (h : FetchAllBookmarks.loop env c query addedSince modifiedSince 100 n s = .running s')
    (hpages : ∀ j < n, ∀ page,
      Serves env c query addedSince modifiedSince (s.offset + 100 * (j : Int)) page →
        page.length ≤ 100) :
    s'.allBookmarks.length = s.allBookmarks.length + 100 * n := by
  induction n generalizing s with
  | zero =>
    simp only [FetchAllBookmarks.loop] at h
    cases h
    simp
  | succ n ih =>
    simp only [FetchAllBookmarks.loop] at h
    cases hb : FetchAllBookmarks.body env c query addedSince modifiedSince 100 s with
    | running s1 =>
      rw [hb] at h
      obtain ⟨ho, _, ha, hl⟩ := body_running hb
      have herr : (FetchBookmarks env c query addedSince modifiedSince 100 s.offset
          s.sent).err = none := by
        unfold FetchAllBookmarks.body at hb
        simp only at hb
        split at hb
        · cases hb
        · next herr => exact herr
      have hsv := FetchBookmarks_ok_Serves env c query addedSince modifiedSince s.offset
        s.sent herr
      have hle := hpages 0 (Nat.succ_pos n) _ (by simpa using hsv)
      have hge : 100 ≤ (FetchBookmarks env c query addedSince modifiedSince 100 s.offset
          s.sent).bookmarks.length := by exact_mod_cast hl
      rw [ih s1 h (by
        intro j hj page hp
        apply hpages (j + 1) (Nat.succ_lt_succ hj) page
        have e : s.offset + 100 * ((j + 1 : Nat) : Int) = s1.offset + 100 * (j : Int) := by
          rw [ho]; push_cast; ring
        rw [e]; exact hp), ha, List.length_append]
      omega
    | returned r => rw [hb] at h; cases h

/-- The offset never runs ahead of the number of accumulated records: every iteration
that advances it by `limit` has appended at least `limit` records. -/
theorem loop_offset_le {env : Env} {c : Client} {query : String}
    {addedSince modifiedSince : Time} {limit : Int} (n : Nat) (s s' : LoopState)
    (h : FetchAllBookmarks.loop env c query addedSince modifiedSince limit n s = .running s')
    (hle : s.offset ≤ s.allBookmarks.length) : s'.offset ≤ s'.allBookmarks.length := by
  induction n generalizing s with
  | zero =>
    simp only [FetchAllBookmarks.loop] at h
    cases h
    exact hle
  | succ n ih =>
    simp only [FetchAllBookmarks.loop] at h
    cases hb : FetchAllBookmarks.body env c query addedSince modifiedSince limit s with
    | running s1 =>
      rw [hb] at h
      obtain ⟨ho, _, ha, hl⟩ := body_running hb
      apply ih s1 h
      rw [ho, ha, List.length_append]
      push_cast
      omega
    | returned r => rw [hb] at h; cases h

/-- In every run of `FetchAllBookmarks` the offset is at most the number of records held
in `allBookmarks`, so `offset += limit` stays within the range of a machine `int`. -/
theorem FetchAllBookmarks_offset_le_count (env : Env) (c : Client) (query : String)
    (addedSince modifiedSince : Time) (sent : List Request) (n : Nat) (s : LoopState)
    (h : FetchAllBookmarks env n c query addedSince modifiedSince sent = .running s) :
    s.offset ≤ s.allBookmarks.length :=
  loop_offset_le n ⟨[], 0, sent⟩ s h (by simp)

/-- The parameter table of the request for page `i` of `FetchAllBookmarks`. -/
theorem params_eq (env : Env) (query : String) (addedSince modifiedSince : Time) (i : Nat) :
    FetchBookmarks.params env query addedSince modifiedSince 100 (100 * (i : Int)) =
      (if query = "" then [] else [("q", [query])]) ++
        (if addedSince.IsZero then []
          else [("added_since", [env.Format addedSince RFC3339])]) ++
        (if modifiedSince.IsZero then []
          else [("modified_since", [env.Format modifiedSince RFC3339])]) ++
        [("limit", ["100"])] ++
        (if i = 0 then [] else [("offset", [fmtD (100 * (i : Int))])]) := by
  have h100 : fmtD 100 = "100" := by decide
  have hoff : (100 * (i : Int) > 0) ↔ i ≠ 0 := by omega
  unfold FetchBookmarks.params
  simp only [Values.Set, h100, hoff]
  by_cases hq : query = "" <;> by_cases ha : addedSince.IsZero = true <;>
    by_cases hm : modifiedSince.IsZero = true <;> by_cases hi : i = 0 <;>
    simp [hq, ha, hm, hi, gomap.assign]

/-- The query of the request is the parameter table. -/
theorem req_RawQuery (env : Env) (c : Client) (query : String) (addedSince modifiedSince : Time)
    (limit offset : Int) :
    (FetchBookmarks.req env c query addedSince modifiedSince limit offset).URL.RawQuery =
      FetchBookmarks.params env query addedSince modifiedSince limit offset := by
  simp only [FetchBookmarks.req, FetchBookmarks.apiURL]
  split
  · rfl
  · next h =>
    have : (FetchBookmarks.params env query addedSince modifiedSince limit offset) = [] := by
      cases hp : FetchBookmarks.params env query addedSince modifiedSince limit offset with
      | nil => rfl
      | cons x xs => rw [hp] at h; simp at h
    rw [this]

/-- C8. The query parameters of the `i`-th request (0-based) that a run of
`FetchAllBookmarks` issues are exactly: `q` with the query when the query is non-empty;
`added_since` with `addedSince` formatted as RFC 3339 when it is not the zero time;
`modified_since` likewise; `limit` = 100; and `offset` = `100 * i` when that is not zero.
No other parameter is present. -/
theorem FetchAllBookmarks_request_params (env : Env) (c : Client) (query : String)
    (addedSince modifiedSince : Time) (sent : List Request) (n i : Nat) (req : Request)
    (h : (FetchAllBookmarks env n c query addedSince modifiedSince sent).sent[sent.length + i]?
      = some req) :
    req.URL.RawQuery =
      (if query = "" then [] else [("q", [query])]) ++
        (if addedSince.IsZero then []
          else [("added_since", [env.Format addedSince RFC3339])]) ++
        (if modifiedSince.IsZero then []
          else [("modified_since", [env.Format modifiedSince RFC3339])]) ++
        [("limit", ["100"])] ++
        (if i = 0 then [] else [("offset", [fmtD (100 * (i : Int))])]) := by
  obtain ⟨m, _, hsent⟩ :=
    loop_sent env c query addedSince modifiedSince 100 n ⟨[], 0, sent⟩
  have hs : (FetchAllBookmarks env n c query addedSince modifiedSince sent).sent = _ := hsent
  rw [hs] at h
  simp only [List.getElem?_append_right (Nat.le_add_right _ _), Nat.add_sub_cancel_left,
    List.getElem?_map, Option.map_eq_some', zero_add] at h
  obtain ⟨j, hj, rfl⟩ := h
  have hji : j = i := by
    by_cases hlt : i < m
    · rw [List.getElem?_range hlt] at hj; exact (Option.some.inj hj).symm
    · rw [List.getElem?_eq_none (by simpa using hlt)] at hj; cases hj
  subst hji
  rw [req_RawQuery, params_eq]

/-- C8 at a concrete run: the third request against the 250-record service, with a query
and an `added_since` bound. -/
theorem FetchAllBookmarks_request_params_witness :
    (FetchBookmarks.req examples.service250 examples.client "go" examples.jan1 ⟨0, 0, 0⟩ 100
        200).URL.RawQuery =
      (if ("go" : String) = "" then [] else [("q", ["go"])]) ++
        (if examples.jan1.IsZero then []
          else [("added_since", [examples.service250.Format examples.jan1 RFC3339])]) ++
        (if (⟨0, 0, 0⟩ : Time).IsZero then []
          else [("modified_since", [examples.service250.Format ⟨0, 0, 0⟩ RFC3339])]) ++
        [("limit", ["100"])] ++
        (if 2 = 0 then [] else [("offset", [fmtD (100 * ((2 : Nat) : Int))])]) :=
  FetchAllBookmarks_request_params examples.service250 examples.client "go" examples.jan1
    ⟨0, 0, 0⟩ [] 3 2 _ (by rfl)

/-- C10 as stated fails: when the first page holds 101 records (a successful response of
a server that ignores `limit`), the second request is issued at offset 100 while 101
records have been accumulated. -/
theorem FetchAllBookmarks_offset_behind_count :
    ∃ s, FetchAllBookmarks examples.serviceOverfull 1 examples.client "" ⟨0, 0, 0⟩ ⟨0, 0, 0⟩ []
        = .running s ∧ s.offset = 100 ∧ s.allBookmarks.length = 101 :=
  ⟨_, rfl, rfl, rfl⟩

/-- C10, amended.  For every sequence of successful page responses in which no page
holds more than 100 records (the pages served at the offsets `0, 100, ..., 100 * (n - 1)`
of the requests made before), at the moment page request `n` is issued (the head of
iteration `n` of the loop) the offset it carries equals the number of records accumulated
from the previous pages; it is `100 * n`.  Nothing is assumed about responses the run
does not receive. -/
theorem FetchAllBookmarks_offset_is_count (env : Env) (c : Client) (query : String)
    (addedSince modifiedSince : Time) (sent : List Request) (n : Nat) (s : LoopState)
    (hpages : ∀ j < n, ∀ page,
      Serves env c query addedSince modifiedSince (100 * (j : Int)) page → page.length ≤ 100)
    (h : FetchAllBookmarks env n c query addedSince modifiedSince sent = .running s) :
    s.offset = s.allBookmarks.length ∧ s.offset = 100 * (n : Int) := by
  have ho := loop_running n ⟨[], 0, sent⟩ s h
  have hlen := loop_running_count n ⟨[], 0, sent⟩ s h (by simpa using hpages)
  simp only [List.length_nil, zero_add] at hlen ho
  refine ⟨?_, ho⟩
  rw [ho, hlen]; push_cast; ring

/-- C10 amended, at a concrete run: the service answers offset 0 with a full page of 100
records (its decoder could also decode a body of 101 records that it never serves); after
that page the loop is at offset 100 with 100 records accumulated. -/
theorem FetchAllBookmarks_offset_is_count_witness :
    FetchAllBookmarks examples.serviceStray 1 examples.client "" ⟨0, 0, 0⟩ ⟨0, 0, 0⟩ [] =
        .running ⟨examples.records 100, 100,
          [FetchBookmarks.req examples.serviceStray examples.client "" ⟨0, 0, 0⟩ ⟨0, 0, 0⟩ 100
            0]⟩ ∧
      (100 : Int) = (examples.records 100).length ∧ (100 : Int) = 100 * ((1 : Nat) : Int) :=
  ⟨rfl,
    FetchAllBookmarks_offset_is_count examples.serviceStray examples.client "" ⟨0, 0, 0⟩
      ⟨0, 0, 0⟩ [] 1
      ⟨examples.records 100, 100,
        [FetchBookmarks.req examples.serviceStray examples.client "" ⟨0, 0, 0⟩ ⟨0, 0, 0⟩ 100 0]⟩
      (by
        intro j hj page hpage
        have hj0 : j = 0 := by omega
        subst hj0
        obtain ⟨_, body, response, hdo, hjson, hres⟩ := hpage
        have hbody : Reply.response 200 "0" none = Reply.response 200 body none := hdo
        have hb : "0" = body := by injection hbody
        subst hb
        have hresp : (Except.ok ⟨0, none, none, examples.records 100⟩ :
            Except String BookmarksResponse) = Except.ok response := hjson
        have hr : (⟨0, none, none, examples.records 100⟩ : BookmarksResponse) = response := by
          injection hresp
        subst hr
        rw [← hres]
        simp [examples.records])
      rfl⟩

end linkding

/-! ## The render data builder -/

namespace markdown

open linkding

/-- The group of key `k` after the grouping loop: what it held before, then the matching records in input order. -/
theorem group_index (env : RenderEnv) (opts : Options) (bookmarks : List Bookmark)
    (m : gomap.Map (List Bookmark)) (k : String) :
    gomap.index (Generate.group env opts bookmarks m) k =
      gomap.index m k ++
        bookmarks.filter (fun b => decide (env.Format b.DateAdded opts.DateFormat = k)) := by
  induction bookmarks generalizing m with
  | nil => simp [Generate.group]
  | cons b rest ih =>
    simp only [Generate.group, ih, gomap.index_assign, List.filter_cons]
    by_cases hk : env.Format b.DateAdded opts.DateFormat = k
    · simp [hk]
    · simp [hk]

/-- The keys after the grouping loop: those present before and the keys of the records. -/
theorem group_keys (env : RenderEnv) (opts : Options) (bookmarks : List Bookmark)
    (m : gomap.Map (List Bookmark)) (k : String) :
    k ∈ gomap.keys (Generate.group env opts bookmarks m) ↔
      k ∈ gomap.keys m ∨ ∃ b ∈ bookmarks, env.Format b.DateAdded opts.DateFormat = k := by
  induction bookmarks generalizing m with
  | nil => simp [Generate.group]
  | cons b rest ih =>
    simp only [Generate.group, ih, gomap.keys_assign]
    by_cases hm : env.Format b.DateAdded opts.DateFormat ∈ gomap.keys m
    · simp only [hm, if_true, List.mem_cons, exists_eq_or_imp]
      constructor
      · rintro (h | h)
        · exact Or.inl h
        · exact Or.inr (Or.inr h)
      · rintro (h | h | h)
        · exact Or.inl h
        · exact Or.inl (h ▸ hm)
        · exact Or.inr h
    · simp only [hm, if_false, List.mem_append, List.mem_singleton, List.mem_cons,
        exists_eq_or_imp, List.not_mem_nil, or_false]
      constructor
      · rintro ((h | h) | h)
        · exact Or.inl h
        · exact Or.inr (Or.inl h.symm)
        · exact Or.inr (Or.inr h)
      · rintro (h | h | h)
        · exact Or.inl (Or.inl h)
        · exact Or.inl (Or.inr h.symm)
        · exact Or.inr h

/-- The grouping loop keeps the keys distinct. -/
theorem group_nodup (env : RenderEnv) (opts : Options) (bookmarks : List Bookmark)
    (m : gomap.Map (List Bookmark)) (h : (gomap.keys m).Nodup) :
    (gomap.keys (Generate.group env opts bookmarks m)).Nodup := by
  induction bookmarks generalizing m with
  | nil => simpa [Generate.group] using h
  | cons b rest ih =>
    simp only [Generate.group]
    exact ih _ (gomap.nodup_keys_assign _ _ _ h)

/-- Splitting a list by a key and joining the classes, each key once, permutes the list. -/
theorem flatMap_filter_perm {α : Type} (key : α → String) (ks : List String) (l : List α)
    (hnd : ks.Nodup) (hall : ∀ a ∈ l, key a ∈ ks) :
    (ks.flatMap (fun k => l.filter (fun a => decide (key a = k)))).Perm l := by
  induction ks generalizing l with
  | nil =>
    cases l with
    | nil => simp
    | cons a l => simpa using hall a (List.mem_cons_self _ _)
  | cons k ks ih =>
    obtain ⟨hk, hnd'⟩ := List.nodup_cons.mp hnd
    rw [List.flatMap_cons]
    have hrest : ks.flatMap (fun k' => l.filter (fun a => decide (key a = k'))) =
        ks.flatMap (fun k' => (l.filter (fun a => !decide (key a = k))).filter
          (fun a => decide (key a = k'))) := by
      apply List.flatMap_congr
      intro k' hk'
      rw [List.filter_filter]
      apply List.filter_congr
      intro a _
      by_cases h : key a = k'
      · have : key a ≠ k := fun e => hk (by rw [← e, h]; exact hk')
        simp [h, h ▸ this]
      · simp [h]
    rw [hrest]
    have ih' := ih (l.filter (fun a => !decide (key a = k))) hnd' (by
      intro a ha
      rw [List.mem_filter] at ha
      have h1 := hall a ha.1
      have h2 : key a ≠ k := by simpa using ha.2
      rcases List.mem_cons.mp h1 with h | h
      · exact absurd h h2
      · exact h)
    exact (List.Perm.append_left _ ih').trans (List.filter_append_perm _ l)

/-- The render context that `Generate` executes the template on is the one built at lines 91-105, whatever the template does. -/
theorem Generate_data (env : RenderEnv) (g : Generator) (now : Time)
    (bookmarks : List Bookmark) (opts : Options) :
    (Generate env g now bookmarks opts).data = Generate.data env now bookmarks opts := by
  unfold Generate
  simp only
  split <;> rfl

/-- The `GroupedBookmarks` field of the render context. -/
theorem Generate_grouped (env : RenderEnv) (g : Generator) (now : Time)
    (bookmarks : List Bookmark) (opts : Options) :
    (Generate env g now bookmarks opts).data.GroupedBookmarks =
      if opts.GroupByDate = true then some (Generate.group env opts bookmarks []) else none := by
  rw [Generate_data]
  unfold Generate.data
  simp only
  split <;> rfl

/-- The value at a key of the grouped mapping is the subsequence of records with that key. -/
theorem group_lookup (env : RenderEnv) (opts : Options) (bookmarks : List Bookmark)
    (k : String) (hk : k ∈ gomap.keys (Generate.group env opts bookmarks [])) :
    gomap.lookup (Generate.group env opts bookmarks []) k =
      some (bookmarks.filter (fun b => decide (env.Format b.DateAdded opts.DateFormat = k))) := by
  have hne : gomap.lookup (Generate.group env opts bookmarks []) k ≠ none := by
    rw [Ne, gomap.lookup_eq_none_iff]; exact fun h => h hk
  have hidx := group_index env opts bookmarks [] k
  simp only [gomap.index] at hidx
  cases hl : gomap.lookup (Generate.group env opts bookmarks []) k with
  | none => exact absurd hl hne
  | some v =>
    rw [hl] at hidx
    simpa [gomap.lookup] using hidx

/-- C4. With `GroupByDate` true, for every record sequence and date format the
`GroupedBookmarks` mapping built by `Generate` has distinct keys, flattening all its
group values (in whatever order the keys are enumerated) gives a permutation of the input
records, and every group is a subsequence of the input, so records keep their relative
order within a group. -/
theorem Generate_grouping_round_trip (env : RenderEnv) (g : Generator) (now : Time)
    (bookmarks : List Bookmark) (opts : Options) (hgroup : opts.GroupByDate = true) :
    ∃ grouped, (Generate env g now bookmarks opts).data.GroupedBookmarks = some grouped ∧
      (gomap.keys grouped).Nodup ∧
      (∀ order : List String, order.Perm (gomap.keys grouped) →
        (order.flatMap (fun k => gomap.index grouped k)).Perm bookmarks) ∧
      (∀ k group, gomap.lookup grouped k = some group → group.Sublist bookmarks) := by
  refine ⟨Generate.group env opts bookmarks [], by rw [Generate_grouped, if_pos hgroup],
    group_nodup env opts bookmarks [] (by simp [gomap.keys]), ?_, ?_⟩
  · intro order horder
    refine (List.Perm.flatMap_right _ horder).trans ?_
    have hfun : (fun k => gomap.index (Generate.group env opts bookmarks []) k) =
        fun k => bookmarks.filter
          (fun b => decide (env.Format b.DateAdded opts.DateFormat = k)) := by
      funext k
      rw [group_index]
      simp [gomap.index, gomap.lookup]
    rw [hfun]
    apply flatMap_filter_perm (fun (b : Bookmark) => env.Format b.DateAdded opts.DateFormat)
    · exact group_nodup env opts bookmarks [] (by simp [gomap.keys])
    · intro b hb
      rw [group_keys]
      exact Or.inr ⟨b, hb, rfl⟩
  · intro k group hl
    have hk : k ∈ gomap.keys (Generate.group env opts bookmarks []) := by
      by_contra hk
      rw [← gomap.lookup_eq_none_iff, hl] at hk
      cases hk
    rw [group_lookup env opts bookmarks k hk] at hl
    cases hl
    exact List.filter_sublist _

/-- C5. With `GroupByDate` true, the keys of `GroupedBookmarks` are exactly the distinct
values of `DateAdded` formatted with `DateFormat` over the input records, and the value at
key `k` is exactly the subsequence of the input records whose formatted `DateAdded` is
`k`, in input order.  In particular, for three records added at 2025-01-01T00:00:00Z,
2025-01-01T00:00:00Z and 2025-01-02T00:00:00Z and the layout `2006-01-02` (which the time
package prints as year-month-day), the mapping has exactly the two keys `2025-01-01`, with
the first two records in input order, and `2025-01-02`, with the third. -/
theorem Generate_groups_by_formatted_date (env : RenderEnv) (g : Generator) (now : Time)
    (bookmarks : List Bookmark) (opts : Options) (hgroup : opts.GroupByDate = true) :
    ∃ grouped, (Generate env g now bookmarks opts).data.GroupedBookmarks = some grouped ∧
      (gomap.keys grouped).Nodup ∧
      (∀ k, k ∈ gomap.keys grouped ↔
        ∃ b ∈ bookmarks, env.Format b.DateAdded opts.DateFormat = k) ∧
      (∀ k ∈ gomap.keys grouped,
        gomap.lookup grouped k = some (bookmarks.filter
          (fun b => decide (env.Format b.DateAdded opts.DateFormat = k)))) ∧
      (∀ b1 b2 b3 : Bookmark, bookmarks = [b1, b2, b3] →
        b1.DateAdded = Date 2025 1 1 0 0 0 → b2.DateAdded = Date 2025 1 1 0 0 0 →
        b3.DateAdded = Date 2025 1 2 0 0 0 → opts.DateFormat = "2006-01-02" →
        (∀ t : Time, env.Format t "2006-01-02" = t.isoDate) →
        grouped = [("2025-01-01", [b1, b2]), ("2025-01-02", [b3])]) := by
  refine ⟨Generate.group env opts bookmarks [], by rw [Generate_grouped, if_pos hgroup],
    group_nodup env opts bookmarks [] (by simp [gomap.keys]), ?_, ?_, ?_⟩
  · intro k
    rw [group_keys]
    simp [gomap.keys]
  · intro k hk
    exact group_lookup env opts bookmarks k hk
  · intro b1 b2 b3 hb h1 h2 h3 hfmt hlib
    have e1 : (Date 2025 1 1 0 0 0).isoDate = "2025-01-01" := by decide
    have e2 : (Date 2025 1 2 0 0 0).isoDate = "2025-01-02" := by decide
    subst hb
    simp [Generate.group, hfmt, hlib, h1, h2, h3, e1, e2, gomap.assign, gomap.index,
      gomap.lookup]

/-- C5 at a concrete input: the three records of the end-to-end example, with the default
options. -/
theorem Generate_groups_by_formatted_date_witness :
    ∃ grouped,
      (Generate (examples.world examples.serviceEmpty).toRenderEnv
        ⟨⟨[], ""⟩⟩ examples.jan2
        [examples.record 1 examples.jan1, examples.record 2 examples.jan1,
          examples.record 3 examples.jan2]
        DefaultOptions).data.GroupedBookmarks = some grouped ∧
      grouped = [("2025-01-01", [examples.record 1 examples.jan1, examples.record 2 examples.jan1]),
        ("2025-01-02", [examples.record 3 examples.jan2])] := by
  obtain ⟨grouped, h1, _, _, _, h5⟩ :=
    Generate_groups_by_formatted_date (examples.world examples.serviceEmpty).toRenderEnv
      ⟨⟨[], ""⟩⟩ examples.jan2
      [examples.record 1 examples.jan1, examples.record 2 examples.jan1,
        examples.record 3 examples.jan2]
      DefaultOptions rfl
  exact ⟨grouped, h1, h5 _ _ _ rfl rfl rfl rfl rfl (fun _ => rfl)⟩

/-- C4 at a concrete input: three records on two dates, flattened with the later date
first. -/
theorem Generate_grouping_round_trip_witness :
    ∃ grouped,
      (Generate (examples.world examples.serviceEmpty).toRenderEnv
        ⟨⟨[], ""⟩⟩ examples.jan2
        [examples.record 1 examples.jan1, examples.record 2 examples.jan2,
          examples.record 3 examples.jan1]
        DefaultOptions).data.GroupedBookmarks = some grouped ∧
      (["2025-01-02", "2025-01-01"].flatMap (fun k => gomap.index grouped k)).Perm
        [examples.record 1 examples.jan1, examples.record 2 examples.jan2,
          examples.record 3 examples.jan1] := by
  obtain ⟨grouped, h1, _, h3, _⟩ :=
    Generate_grouping_round_trip (examples.world examples.serviceEmpty).toRenderEnv
      ⟨⟨[], ""⟩⟩ examples.jan2
      [examples.record 1 examples.jan1, examples.record 2 examples.jan2,
        examples.record 3 examples.jan1]
      DefaultOptions rfl
  refine ⟨grouped, h1, h3 _ ?_⟩
  have hg : grouped = [("2025-01-01", [examples.record 1 examples.jan1,
      examples.record 3 examples.jan1]), ("2025-01-02", [examples.record 2 examples.jan2])] :=
    Option.some.inj (h1.symm.trans (by decide))
  rw [hg]
  exact List.Perm.swap _ _ _

/-- The function `strings.TrimSpace` returns the empty string exactly on strings made of white space only. -/
theorem TrimSpace_eq_empty_iff (s : String) :
    TrimSpace s = "" ↔ ∀ c ∈ s.data, IsSpace c = true := by
  unfold TrimSpace
  have hmk : ∀ l : List Char, String.mk l = "" ↔ l = [] := by
    intro l
    constructor
    · intro h
      have := congrArg String.data h
      simpa using this
    · rintro rfl; rfl
  rw [hmk, List.reverse_eq_nil_iff, List.dropWhile_eq_nil_iff]
  constructor
  · intro h
    by_contra hne
    have hne' : s.data.dropWhile IsSpace ≠ [] := by
      rwa [Ne, List.dropWhile_eq_nil_iff]
    have hhead := List.head_dropWhile_not IsSpace s.data hne'
    have hmem : (s.data.dropWhile IsSpace).head hne' ∈ (s.data.dropWhile IsSpace).reverse :=
      List.mem_reverse.mpr (List.head_mem hne')
    rw [h _ hmem] at hhead
    cases hhead
  · intro h c hc
    rw [List.mem_reverse] at hc
    exact h c ((List.dropWhile_sublist IsSpace).subset hc)

/-- C6 as stated fails: the function registered under the name `hasContent` returns false
for the empty string and for three blanks, and true for `x` and for ` x `. -/
theorem hasContent_blank_is_false :
    ∃ f, gomap.lookup
        (NewGeneratorWithTemplate.funcMap (examples.world examples.serviceEmpty).toRenderEnv)
        "hasContent" = some (.stringBool f) ∧
      f "" = false ∧ f "   " = false ∧ f "x" = true ∧ f " x " = true :=
  ⟨_, rfl, by decide, by decide, by decide, by decide⟩

/-- C6, amended.  The function registered for templates under the name `hasContent`
returns false for every string that is empty or consists solely of white space and true
for every other string; it returns false for the empty string and for three blanks, and
true for `x` and ` x `. -/
theorem hasContent_registered (env : RenderEnv) :
    ∃ f, gomap.lookup (NewGeneratorWithTemplate.funcMap env) "hasContent" =
        some (.stringBool f) ∧
      (∀ s : String, f s = false ↔ ∀ c ∈ s.data, IsSpace c = true) ∧
      f "" = false ∧ f "   " = false ∧ f "x" = true ∧ f " x " = true := by
  refine ⟨fun s => TrimSpace s != "", rfl, ?_, by decide, by decide, by decide, by decide⟩
  intro s
  rw [← TrimSpace_eq_empty_iff]
  simp

/-- C9. For every record sequence and every `Options` value, the render context built by
`Generate` has `Title` equal to `opts.Title`, `Bookmarks` equal to the input sequence,
`Options` equal to the given options, and `GroupedBookmarks` populated exactly when
`opts.GroupByDate` is true: it is nil exactly when `GroupByDate` is false, whatever the
records, and when `GroupByDate` is true it is a map that holds, under each formatted
`DateAdded` of a record, the records with that formatted date in input order, and nothing
under any other key. -/
theorem Generate_render_context (env : RenderEnv) (g : Generator) (now : Time)
    (bookmarks : List Bookmark) (opts : Options) :
    (Generate env g now bookmarks opts).data.Title = opts.Title ∧
      (Generate env g now bookmarks opts).data.Bookmarks = bookmarks ∧
      (Generate env g now bookmarks opts).data.Options = opts ∧
      (Generate env g now bookmarks opts).data.GroupedBookmarks.isSome = opts.GroupByDate ∧
      ((Generate env g now bookmarks opts).data.GroupedBookmarks = none ↔
        opts.GroupByDate = false) ∧
      (∀ k : String,
        (Generate env g now bookmarks opts).data.GroupedBookmarks.bind
            (fun grouped => gomap.lookup grouped k) =
          if opts.GroupByDate = true ∧
              k ∈ bookmarks.map (fun b => env.Format b.DateAdded opts.DateFormat) then
            some (bookmarks.filter
              (fun b => decide (env.Format b.DateAdded opts.DateFormat = k)))
          else none) := by
  have hdata := Generate_data env g now bookmarks opts
  have hgrouped := Generate_grouped env g now bookmarks opts
  refine ⟨?_, ?_, ?_, ?_, ?_, ?_⟩
  · rw [hdata]; unfold Generate.data; cases h : opts.GroupByDate <;> simp [h]
  · rw [hdata]; unfold Generate.data; cases h : opts.GroupByDate <;> simp [h]
  · rw [hdata]; unfold Generate.data; cases h : opts.GroupByDate <;> simp [h]
  · rw [hgrouped]; cases h : opts.GroupByDate <;> simp
  · rw [hgrouped]; cases h : opts.GroupByDate <;> simp
  · intro k
    rw [hgrouped]
    cases h : opts.GroupByDate
    · simp
    · simp only [if_true, Option.some_bind, true_and]
      have hkeys := group_keys env opts bookmarks [] k
      simp only [gomap.keys, List.map_nil, List.not_mem_nil, false_or] at hkeys
      by_cases hk : k ∈ bookmarks.map (fun b => env.Format b.DateAdded opts.DateFormat)
      · rw [if_pos hk]
        apply group_lookup
        rw [gomap.keys, hkeys]
        simpa using hk
      · rw [if_neg hk, gomap.lookup_eq_none_iff, gomap.keys, hkeys]
        simpa using hk

end markdown

/-! ## The fetch command -/

namespace cmd

open linkding markdown

/-- An empty first page: `FetchAllBookmarks` returns no records and no error after one request. -/
theorem FetchAllBookmarks_first_empty {env : linkding.Env} {c : Client} {query : String}
    {addedSince modifiedSince : Time}
    (h : Serves env c query addedSince modifiedSince 0 []) (n : Nat) (sent : List Request) :
    FetchAllBookmarks env (n + 1) c query addedSince modifiedSince sent =
      .returned ⟨[], none,
        sent ++ [FetchBookmarks.req env c query addedSince modifiedSince 100 0]⟩ := by
  have := @loop_of_pages env c query addedSince modifiedSince 0 sent (fun _ => [])
    (by intro j hj; have : j = 0 := by omega
        subst this; simpa using h)
    (by intro j hj; omega) (by simp) (n + 1) (Nat.succ_pos n)
  simpa [List.range_succ] using this

/-- C7 as stated fails: with an empty first page the run makes its single request and
ends in success, but `Generate` is never called. -/
theorem runFetch_empty_skips_render :
    ∃ w, runFetch (examples.world examples.serviceEmpty) 1 examples.settings examples.quiet =
        some (none, w) ∧ w.sent.length = 1 ∧ w.generated = [] :=
  ⟨_, rfl, rfl, rfl⟩

/-- C7, amended.  When the first page returns zero results for the query and the time
bounds that `runFetch` itself computes (`addedSince` from `--since` or the day count,
`addedUntil` from `--until`), `FetchAllBookmarks` returns an empty record sequence and no
error after that single request, and `runFetch` ends in success after logging the warning
that no bookmarks were found, without calling the renderer and without creating an output
file: the effects of the run are the four log lines, the one request and, when the day
count was used, one reading of the clock. -/
theorem runFetch_empty_result (env : CmdEnv) (v : Settings) (w : Effects) (n : Nat)
    (addedSince addedUntil : Time)
    (hurl : v.linkding_url ≠ "") (htoken : v.linkding_token ≠ "")
    (hsince :
      (v.fetch_since ≠ "" ∧ env.ParseTime "2006-01-02" v.fetch_since = .ok addedSince) ∨
      (v.fetch_since = "" ∧ v.fetch_days > 0 ∧
        addedSince = env.AddDate (env.Now w.clock) 0 0 (-v.fetch_days)) ∨
      (v.fetch_since = "" ∧ ¬ v.fetch_days > 0 ∧ addedSince = ⟨0, 0, 0⟩))
    (huntil :
      (v.fetch_until ≠ "" ∧ env.ParseTime "2006-01-02" v.fetch_until = .ok addedUntil) ∨
      (v.fetch_until = "" ∧ addedUntil = ⟨0, 0, 0⟩))
    (hempty :
      Serves env.toEnv ⟨v.linkding_url, v.linkding_token, ⟨v.linkding_timeout⟩⟩ v.fetch_query
        addedSince addedUntil 0 []) :
    FetchAllBookmarks env.toEnv (n + 1)
        ⟨v.linkding_url, v.linkding_token, ⟨v.linkding_timeout⟩⟩ v.fetch_query addedSince
        addedUntil w.sent =
        .returned ⟨[], none, w.sent ++ [FetchBookmarks.req env.toEnv
          ⟨v.linkding_url, v.linkding_token, ⟨v.linkding_timeout⟩⟩ v.fetch_query addedSince
          addedUntil 100 0]⟩ ∧
      runFetch env (n + 1) v w = some (none,
        { log := w.log ++
            [(.info, "Connecting to Linkding at " ++ v.linkding_url),
              (.info, "Fetching bookmarks since " ++ env.Format addedSince "2006-01-02"),
              (.info, "Fetched 0 bookmarks"),
              (.warn, "No bookmarks found matching the criteria")]
          sent := w.sent ++ [FetchBookmarks.req env.toEnv
            ⟨v.linkding_url, v.linkding_token, ⟨v.linkding_timeout⟩⟩ v.fetch_query addedSince
            addedUntil 100 0]
          clock := if v.fetch_since = "" ∧ v.fetch_days > 0 then w.clock + 1 else w.clock
          created := w.created
          generated := w.generated }) := by
  have hfetch := fun sent => FetchAllBookmarks_first_empty hempty n sent
  refine ⟨hfetch w.sent, ?_⟩
  have h0 : "Fetched " ++ fmtD 0 ++ " bookmarks" = "Fetched 0 bookmarks" := by decide
  unfold runFetch
  simp only [hurl, htoken, NewClient, if_false, ne_eq]
  rcases hsince with ⟨hs, hp⟩ | ⟨hs, hd, rfl⟩ | ⟨hs, hd, rfl⟩
  · rcases huntil with ⟨hu, hq⟩ | ⟨hu, rfl⟩
    · simp [hs, hu, hp, hq, hfetch, h0]
    · simp [hs, hu, hp, hfetch, h0]
  · rcases huntil with ⟨hu, hq⟩ | ⟨hu, rfl⟩
    · simp [hs, hu, hq, hd, hfetch, h0]
    · simp [hs, hu, hd, hfetch, h0]
  · rcases huntil with ⟨hu, hq⟩ | ⟨hu, rfl⟩
    · simp [hs, hu, hq, hd, hfetch, h0]
    · simp [hs, hu, hd, hfetch, h0]

/-- C7 amended, at a concrete run: the service has records but none for the bound that
the default seven-day window sends as `added_since`. -/
theorem runFetch_empty_result_witness :
    runFetch (examples.world examples.serviceSince) (0 + 1) examples.settings examples.quiet =
      some (none,
        { log := examples.quiet.log ++
            [(.info, "Connecting to Linkding at " ++ examples.settings.linkding_url),
              (.info, "Fetching bookmarks since " ++
                (examples.world examples.serviceSince).Format
                  ((examples.world examples.serviceSince).AddDate
                    ((examples.world examples.serviceSince).Now examples.quiet.clock) 0 0
                    (-examples.settings.fetch_days)) "2006-01-02"),
              (.info, "Fetched 0 bookmarks"),
              (.warn, "No bookmarks found matching the criteria")]
          sent := examples.quiet.sent ++
            [FetchBookmarks.req (examples.world examples.serviceSince).toEnv
              ⟨examples.settings.linkding_url, examples.settings.linkding_token,
                ⟨examples.settings.linkding_timeout⟩⟩ examples.settings.fetch_query
              ((examples.world examples.serviceSince).AddDate
                ((examples.world examples.serviceSince).Now examples.quiet.clock) 0 0
                (-examples.settings.fetch_days)) ⟨0, 0, 0⟩ 100 0]
          clock :=
            if examples.settings.fetch_since = "" ∧ examples.settings.fetch_days > 0 then
              examples.quiet.clock + 1
            else examples.quiet.clock
          created := examples.quiet.created
          generated := examples.quiet.generated }) :=
  (runFetch_empty_result (examples.world examples.serviceSince) examples.settings
    examples.quiet 0
    ((examples.world examples.serviceSince).AddDate
      ((examples.world examples.serviceSince).Now examples.quiet.clock) 0 0
      (-examples.settings.fetch_days))
    ⟨0, 0, 0⟩ (by decide) (by decide) (Or.inr (Or.inl ⟨rfl, by decide, rfl⟩))
    (Or.inr ⟨rfl, rfl⟩) ⟨rfl, "since", _, rfl, rfl, rfl⟩).2

end cmd
